import Mathlib

/-!
# GHero — verification of the chart parser, gameplay engine and audio synthesis

A shallow embedding, in Lean 4, of the Go sources of the GHero rhythm game:
the MIDI chart parser (`readVariableLength`, pitch filtering), the gameplay
timing/scoring state machine (`Game` with its per-frame update functions), the
chart-to-session adapter (`LoadMIDITrack`), and the audio synthesis routine
(`synthesizeAtTime`).

Conventions of the embedding:
* Go `float64` values (times, durations, sustain progress, audio samples) are
  modelled as exact rationals `ℚ`; Go `float32`/`int32`/`int` as `ℚ`/`ℤ`.
  No claim below depends on floating-point rounding or on `int32` overflow
  (all quantities stay far below `2^31`), so overflow is not modelled.
* Go's `int32(f)` conversion of a `float64` truncates toward zero; it is
  modelled by `goTrunc`.  Go's integer division truncates toward zero; it is
  modelled by `Int.tdiv`.
* In `ℚ`, division by zero yields `0` (Go would produce `±Inf`/`NaN`); every
  theorem that divides by a duration assumes `0 < Duration`.
* Wall-clock sampling (`time.Now`, `time.Since`) is modelled by passing the
  current time `now : ℚ` explicitly; `StartGame`'s capture of a fresh start
  timestamp is modelled as `currentTime := 0`.
* `math.Sin` is transcendental; the audio theorems are stated for an
  arbitrary oscillator `osc : ℤ → ℚ → ℚ`, where `osc p t` stands for
  `math.Sin(2π · midiToFrequency(p) · t)`.  The synthesis claims under
  scrutiny (amplitude normalization) are independent of the oscillator.
* Rendering-only data (screen X coordinates, key codes, colors) is omitted;
  the `Y` position of a note is kept because `updateNotes` uses it to
  deactivate off-screen notes.
-/

namespace GHero

/-- Go's `int32(f)` conversion of a non-negative-or-negative `float64`:
truncation toward zero. -/
def goTrunc (q : ℚ) : ℤ := if q < 0 then -(Int.floor (-q)) else Int.floor q

/-- `HitAccuracy` from the Go source (`Miss HitAccuracy = iota; OK; Good; Perfect`). -/
inductive HitAccuracy where
  | Miss
  | OK
  | Good
  | Perfect
deriving DecidableEq, Repr

/-- `GameState` from the Go source (`StateMenu GameState = iota; StatePlaying; StateGameOver`). -/
inductive GameState where
  | StateMenu
  | StatePlaying
  | StateGameOver
deriving DecidableEq, Repr

/-- `MIDINote` from `midi_processor.go`. -/
structure MIDINote where
  Pitch : ℤ
  Velocity : ℤ
  StartTime : ℚ
  Duration : ℚ
  Lane : ℤ
deriving DecidableEq, Repr

/-- `GameNote` from the Go game source.  `Width`/`Height` are carried for
fidelity; `Y` is the current screen position used by `updateNotes`. -/
structure GameNote where
  StartTime : ℚ
  Duration : ℚ
  Lane : ℤ
  Y : ℚ
  Width : ℚ
  Height : ℚ
  IsActive : Bool
  IsHit : Bool
  HitAccuracy : HitAccuracy
  IsPressed : Bool
  PressStartTime : ℚ
  IsBeingHeld : Bool
  SustainProgress : ℚ
deriving DecidableEq, Repr

/-- `Lane` from the Go source; only the `IsPressed` flag participates in game
logic (`X`, `Width`, `KeyCode` are rendering/input-device data). -/
structure Lane where
  IsPressed : Bool
deriving DecidableEq, Repr

/-- The gameplay-relevant fields of the Go `Game` struct.  `screenWidth`,
`screenHeight`, `hitLine` are the constant values the source assigns them;
they are kept as global constants below.  The MIDI processor and audio
manager handles are not part of the timing/scoring state. -/
structure Game where
  gameNotes : List GameNote
  score : ℤ
  combo : ℤ
  maxCombo : ℤ
  state : GameState
  currentTime : ℚ
  songDuration : ℚ
  lanes : List Lane
  perfectHits : ℤ
  goodHits : ℤ
  okHits : ℤ
  missedHits : ℤ
  totalNotes : ℤ
deriving DecidableEq, Repr

/-- Game constants from the Go source. -/
def SCREEN_HEIGHT : ℚ := 600

def LANE_WIDTH : ℚ := 200

def NOTE_HEIGHT : ℚ := 40

def HIT_LINE_Y : ℚ := 500

def NOTE_SPEED : ℚ := 200

def GAME_DURATION : ℚ := 30.0

/-- Reading `g.lanes[i].IsPressed`.  The Go slice access would panic out of
range; the game only ever holds exactly 3 lanes and note lanes 0–2, so the
default is never reached in reachable states. -/
def lanePressedAt (lanes : List Lane) (i : ℤ) : Bool :=
  (lanes.getD i.toNat { IsPressed := false }).IsPressed

/-- `calculateAccuracy` from the Go source: hit accuracy from a timing
difference in seconds. -/
def calculateAccuracy (timeDiff : ℚ) : HitAccuracy :=
  let absTimeDiff := if timeDiff < 0 then -timeDiff else timeDiff
  if absTimeDiff ≤ 0.05 then HitAccuracy.Perfect
  else if absTimeDiff ≤ 0.1 then HitAccuracy.Good
  else if absTimeDiff ≤ 0.15 then HitAccuracy.OK
  else HitAccuracy.Miss

/-- `isSustainedNote` from the Go source: duration strictly above 0.3 s. -/
def isSustainedNote (note : GameNote) : Bool :=
  0.3 < note.Duration

/-- `addScore` from the Go source: score, combo, per-tier counters, max
combo, and the combo bonus `combo/10` (Go `int32` division) once combo
exceeds 10. -/
def addScore (g : Game) (accuracy : HitAccuracy) : Game :=
  let g :=
    match accuracy with
    | HitAccuracy.Perfect =>
        { g with score := g.score + 100, combo := g.combo + 1,
                 perfectHits := g.perfectHits + 1 }
    | HitAccuracy.Good =>
        { g with score := g.score + 75, combo := g.combo + 1,
                 goodHits := g.goodHits + 1 }
    | HitAccuracy.OK =>
        { g with score := g.score + 50, combo := g.combo + 1,
                 okHits := g.okHits + 1 }
    | HitAccuracy.Miss =>
        { g with combo := 0, missedHits := g.missedHits + 1 }
  let g := if g.maxCombo < g.combo then { g with maxCombo := g.combo } else g
  if 10 < g.combo then { g with score := g.score + Int.tdiv g.combo 10 } else g

/-- One iteration of the `updateSustainedNotes` loop body from the Go source,
acting on the current note and the game's scalar state.  `lanes` and `now`
are the game's lane array and clock, which the loop reads but never writes. -/
def updateSustainedNoteStep (lanes : List Lane) (now : ℚ) (note : GameNote) (g : Game) :
    GameNote × Game :=
  if ¬note.IsActive ∨ ¬note.IsPressed ∨ note.IsHit then (note, g)
  else if lanePressedAt lanes note.Lane then
    let noteElapsed := now - note.StartTime
    let progress0 := noteElapsed / note.Duration
    let progress := if progress0 < 0 then 0 else if 1.0 < progress0 then 1.0 else progress0
    let note := { note with SustainProgress := progress, IsBeingHeld := true }
    let noteEndTime := note.StartTime + note.Duration
    if noteEndTime ≤ now then
      let note := { note with IsPressed := false, IsBeingHeld := false, IsHit := true }
      let accuracy := note.HitAccuracy
      let g := addScore g accuracy
      let g := if 0.8 < note.SustainProgress then
                 { g with score := g.score + goTrunc (50 * note.SustainProgress) }
               else g
      (note, g)
    else (note, g)
  else
    let note := { note with IsPressed := false, IsBeingHeld := false, IsHit := true,
                            HitAccuracy := HitAccuracy.Miss }
    (note, addScore g HitAccuracy.Miss)

/-- The `for i := range g.gameNotes` loop of `updateSustainedNotes`. -/
def updateSustainedNotesAux (lanes : List Lane) (now : ℚ) :
    List GameNote → Game → List GameNote × Game
  | [], g => ([], g)
  | note :: rest, g =>
      let p := updateSustainedNoteStep lanes now note g
      let q := updateSustainedNotesAux lanes now rest p.2
      (p.1 :: q.1, q.2)

/-- `updateSustainedNotes` from the Go source. -/
def updateSustainedNotes (g : Game) : Game :=
  let p := updateSustainedNotesAux g.lanes g.currentTime g.gameNotes g
  { p.2 with gameNotes := p.1 }

/-- One iteration of the `checkMissedNotes` loop body from the Go source. -/
def checkMissedNoteStep (now : ℚ) (note : GameNote) (g : Game) : GameNote × Game :=
  if ¬note.IsActive ∨ note.IsHit then (note, g)
  else if note.StartTime + 0.2 < now then
    ({ note with IsHit := true, HitAccuracy := HitAccuracy.Miss },
     addScore g HitAccuracy.Miss)
  else (note, g)

/-- The `for i := range g.gameNotes` loop of `checkMissedNotes`. -/
def checkMissedNotesAux (now : ℚ) : List GameNote → Game → List GameNote × Game
  | [], g => ([], g)
  | note :: rest, g =>
      let p := checkMissedNoteStep now note g
      let q := checkMissedNotesAux now rest p.2
      (p.1 :: q.1, q.2)

/-- `checkMissedNotes` from the Go source: the per-frame miss sweep. -/
def checkMissedNotes (g : Game) : Game :=
  let p := checkMissedNotesAux g.currentTime g.gameNotes g
  { p.2 with gameNotes := p.1 }

/-- The scan of `findClosestNote`: `i` is the index of the head of the
remaining list, `minDistance`/`best` the running minimum and its index. -/
def findClosestNoteAux (now : ℚ) (laneIndex : ℤ) :
    List GameNote → ℕ → ℚ → Option ℕ → Option ℕ
  | [], _, _, best => best
  | note :: rest, i, minDistance, best =>
      if ¬note.IsActive ∨ note.IsHit ∨ note.IsPressed ∨ note.Lane ≠ laneIndex then
        findClosestNoteAux now laneIndex rest (i + 1) minDistance best
      else
        let distance := note.StartTime - now
        if distance < minDistance ∧ -0.2 < distance then
          findClosestNoteAux now laneIndex rest (i + 1) distance (some i)
        else
          findClosestNoteAux now laneIndex rest (i + 1) minDistance best

/-- `findClosestNote` from the Go source, returning the index of the chosen
note instead of a pointer into the slice. -/
def findClosestNote (g : Game) (laneIndex : ℤ) : Option ℕ :=
  findClosestNoteAux g.currentTime laneIndex g.gameNotes 0 1000000 none

/-- `handleKeyPress` from the Go source. -/
def handleKeyPress (g : Game) (laneIndex : ℤ) : Game :=
  match findClosestNote g laneIndex with
  | none => g
  | some i =>
      match g.gameNotes.get? i with
      | none => g
      | some note =>
          let timeDiff := g.currentTime - note.StartTime
          let accuracy := calculateAccuracy timeDiff
          if accuracy ≠ HitAccuracy.Miss then
            if isSustainedNote note then
              let note1 := { note with IsPressed := true, PressStartTime := g.currentTime,
                                       IsBeingHeld := true, HitAccuracy := accuracy }
              { g with gameNotes := g.gameNotes.set i note1 }
            else
              let note1 := { note with IsHit := true, HitAccuracy := accuracy }
              let g := { g with gameNotes := g.gameNotes.set i note1 }
              addScore g accuracy
          else g

/-- The `for i := range g.gameNotes` loop of `handleKeyRelease`; the `break`
after the first matching note is the non-recursive second branch. -/
def handleKeyReleaseAux (now : ℚ) (laneIndex : ℤ) :
    List GameNote → Game → List GameNote × Game
  | [], g => ([], g)
  | note :: rest, g =>
      if ¬note.IsActive ∨ note.Lane ≠ laneIndex ∨ ¬note.IsPressed ∨ note.IsHit then
        let q := handleKeyReleaseAux now laneIndex rest g
        (note :: q.1, q.2)
      else
        let noteEndTime := note.StartTime + note.Duration
        let releaseTimeDiff := now - noteEndTime
        let releaseAccuracy := calculateAccuracy releaseTimeDiff
        let note1 := { note with IsPressed := false, IsBeingHeld := false, IsHit := true }
        let finalAccuracy := note.HitAccuracy
        let finalAccuracy :=
          if releaseAccuracy = HitAccuracy.Miss then
            if finalAccuracy = HitAccuracy.Perfect then HitAccuracy.Good
            else if finalAccuracy = HitAccuracy.Good then HitAccuracy.OK
            else finalAccuracy
          else finalAccuracy
        let g := addScore g finalAccuracy
        let g := if 0.8 < note.SustainProgress then
                   { g with score := g.score + goTrunc (50 * note.SustainProgress) }
                 else g
        (note1 :: rest, g)

/-- `handleKeyRelease` from the Go source. -/
def handleKeyRelease (g : Game) (laneIndex : ℤ) : Game :=
  let p := handleKeyReleaseAux g.currentTime laneIndex g.gameNotes g
  { p.2 with gameNotes := p.1 }

/-- One iteration of the `updateNotes` loop body from the Go source: recompute
the screen position of an active note and deactivate it once off screen. -/
def updateNoteStep (now : ℚ) (note : GameNote) : GameNote :=
  if ¬note.IsActive then note
  else
    let timeUntilHit := note.StartTime - now
    let note := { note with Y := HIT_LINE_Y - timeUntilHit * NOTE_SPEED }
    if SCREEN_HEIGHT + 50 < note.Y then { note with IsActive := false } else note

/-- `updateNotes` from the Go source. -/
def updateNotes (g : Game) : Game :=
  { g with gameNotes := g.gameNotes.map (updateNoteStep g.currentTime) }

/-- `StartGame` from the Go source.  `gameStartTime = time.Now()` restarts the
wall clock, which together with `currentTime = 0` is modelled as
`currentTime := 0`; starting audio playback is outside the game state. -/
def StartGame (g : Game) : Game :=
  { g with state := GameState.StatePlaying,
           currentTime := 0,
           score := 0, combo := 0, maxCombo := 0,
           perfectHits := 0, goodHits := 0, okHits := 0, missedHits := 0,
           gameNotes := g.gameNotes.map fun n =>
             { n with IsActive := true, IsHit := false } }

/-- `EndGame` from the Go source (audio stop is outside the game state). -/
def EndGame (g : Game) : Game :=
  { g with state := GameState.StateGameOver }

/-- `checkAllNotesProcessed` from the Go source. -/
def checkAllNotesProcessed (g : Game) : Game :=
  let processedNotes := g.perfectHits + g.goodHits + g.okHits + g.missedHits
  if g.totalNotes ≤ processedNotes then EndGame g else g

/-- The per-lane input booleans the game polls each frame (held,
just-pressed-this-frame, just-released-this-frame). -/
structure LaneInput where
  IsDown : Bool
  JustPressed : Bool
  JustReleased : Bool
deriving DecidableEq, Repr

/-- The body of the `updateInput` loop for lane `i`: store the held flag and
dispatch the just-pressed / just-released events. -/
def updateInputAux : List LaneInput → ℕ → Game → Game
  | [], _, g => g
  | inp :: rest, i, g =>
      let g := { g with lanes := g.lanes.set i { IsPressed := inp.IsDown } }
      let g := if inp.JustPressed then handleKeyPress g i else g
      let g := if inp.JustReleased then handleKeyRelease g i else g
      updateInputAux rest (i + 1) g

/-- `updateInput` from the Go source, with the keyboard poll results passed
in as one `LaneInput` per lane. -/
def updateInput (g : Game) (inputs : List LaneInput) : Game :=
  updateInputAux inputs 0 g

/-- `Game.Update` from the Go source: one frame of the Playing state, given
the freshly sampled wall-clock time `now` and the per-lane input flags. -/
def Update (g : Game) (now : ℚ) (inputs : List LaneInput) : Game :=
  if g.state ≠ GameState.StatePlaying then g
  else
    let g := { g with currentTime := now }
    if g.songDuration < g.currentTime then EndGame g
    else
      let g := updateInput g inputs
      let g := updateNotes g
      let g := updateSustainedNotes g
      let g := checkMissedNotes g
      checkAllNotesProcessed g

/-- The `earliestNoteTime` fold of `Game.LoadMIDITrack`: a running minimum
started from the sentinel `999999`. -/
def earliestNoteTimeOf (notes : List MIDINote) : ℚ :=
  notes.foldl (fun acc n => if n.StartTime < acc then n.StartTime else acc) 999999

/-- The body of the note-conversion loop of `Game.LoadMIDITrack`: offset by
`earliest`, drop the note if it starts after the 30 s window, clip its
duration to the window; unmentioned `GameNote` fields get Go zero values
(`HitAccuracy` iota zero is `Miss`). -/
def loadGameNote (earliest : ℚ) (midiNote : MIDINote) : Option GameNote :=
  let adjustedStartTime := midiNote.StartTime - earliest + 2.0
  if GAME_DURATION < adjustedStartTime then none
  else
    let adjustedDuration := midiNote.Duration
    let noteEndTime := adjustedStartTime + adjustedDuration
    let adjustedDuration :=
      if GAME_DURATION < noteEndTime then GAME_DURATION - adjustedStartTime
      else adjustedDuration
    some { StartTime := adjustedStartTime, Duration := adjustedDuration,
           Lane := midiNote.Lane, Y := 0, Width := LANE_WIDTH - 20,
           Height := NOTE_HEIGHT, IsActive := true, IsHit := false,
           HitAccuracy := HitAccuracy.Miss, IsPressed := false,
           PressStartTime := 0, IsBeingHeld := false, SustainProgress := 0 }

/-- The note-conversion loop of `Game.LoadMIDITrack` (append-if-kept). -/
def loadGameNotesAux (earliest : ℚ) : List MIDINote → List GameNote
  | [] => []
  | n :: rest =>
      match loadGameNote earliest n with
      | none => loadGameNotesAux earliest rest
      | some gn => gn :: loadGameNotesAux earliest rest

/-- `Game.LoadMIDITrack` from the Go source, restricted to the session state
it produces: the converted gameplay notes, `songDuration := GAME_DURATION`,
and `totalNotes := len(gameNotes)`.  (The audio list it hands to the audio
manager is adjusted the same way and is not needed by the claims.) -/
def LoadMIDITrack (g : Game) (notes : List MIDINote) : Game :=
  let earliest := earliestNoteTimeOf notes
  let gameNotes := loadGameNotesAux earliest notes
  { g with gameNotes := gameNotes,
           songDuration := GAME_DURATION,
           totalNotes := gameNotes.length }

/-- `readVariableLength` from `main.go`, on the byte stream from the current
position (each byte a value `< 256`): 7 bits per byte accumulated big-endian,
continue while bit 7 is set, at most 4 bytes.  Returns the decoded value and
the remaining stream, or `none` when the data runs out mid-quantity. -/
def readVariableLengthAux : ℕ → ℕ → List ℕ → Option (ℕ × List ℕ)
  | 0, value, data => some (value, data)
  | _ + 1, _, [] => none
  | i + 1, value, b :: rest =>
      let value := (value <<< 7) ||| (b &&& 0x7F)
      if b &&& 0x80 = 0 then some (value, rest)
      else readVariableLengthAux i value rest

/-- `readVariableLength` from `main.go` (the loop runs at most 4 times). -/
def readVariableLength (data : List ℕ) : Option (ℕ × List ℕ) :=
  readVariableLengthAux 4 0 data

/-- The guitar-range filter loop of `parseMIDIFile` in `midi_processor.go`:
keep exactly the parsed notes whose pitch lies in `[40, 84]`. -/
def guitarNotesFilter : List MIDINote → List MIDINote
  | [] => []
  | note :: rest =>
      if 40 ≤ note.Pitch ∧ note.Pitch ≤ 84 then note :: guitarNotesFilter rest
      else guitarNotesFilter rest

/-- The final clamp of `synthesizeAtTime`: hard-clip one channel to `[-1, 1]`. -/
def clampSample (x : ℚ) : ℚ :=
  if 1.0 < x then 1.0 else if x < -1.0 then -1.0 else x

/-- One iteration of the note loop of `synthesizeAtTime` from the Go source,
threading `(left, right, activeNoteCount)`.  `osc p t` abstracts the Go
expression `math.Sin(2 * math.Pi * midiToFrequency(p) * t)`. -/
def synthNoteStep (osc : ℤ → ℚ → ℚ) (currentTime : ℚ)
    (acc : ℚ × ℚ × ℤ) (note : MIDINote) : ℚ × ℚ × ℤ :=
  let left := acc.1
  let right := acc.2.1
  let noteStart := note.StartTime
  let noteEnd := note.StartTime + note.Duration
  if noteStart ≤ currentTime ∧ currentTime < noteEnd then
    let activeNoteCount := acc.2.2 + 1
    let amplitude : ℚ := 0.2
    let fadeTime : ℚ := 0.05
    let envelope : ℚ :=
      if currentTime - noteStart < fadeTime then (currentTime - noteStart) / fadeTime
      else if noteEnd - currentTime < fadeTime then (noteEnd - currentTime) / fadeTime
      else 1.0
    let sample := amplitude * envelope * osc note.Pitch currentTime
    let sample := if 1 < activeNoteCount then sample / (activeNoteCount : ℚ) else sample
    if note.Lane = 0 then (left + sample * 0.8, right + sample * 0.4, activeNoteCount)
    else if note.Lane = 1 then (left + sample * 0.6, right + sample * 0.6, activeNoteCount)
    else if note.Lane = 2 then (left + sample * 0.4, right + sample * 0.8, activeNoteCount)
    else (left + sample * 0.5, right + sample * 0.5, activeNoteCount)
  else acc

/-- `synthesizeAtTime` from the Go source: the 440 Hz calibration tone during
the first two seconds (amplitude 0.2, both channels, counted as one active
note), then one sine contribution per active MIDI note, then the hard clip.
The test tone's `440.0` equals `midiToFrequency 69`, so its sine is `osc 69`. -/
def synthesizeAtTime (osc : ℤ → ℚ → ℚ) (notes : List MIDINote) (currentTime : ℚ) :
    ℚ × ℚ :=
  let init : ℚ × ℚ × ℤ :=
    if 0 ≤ currentTime ∧ currentTime < 2.0 then
      let testSample := 0.2 * osc 69 currentTime
      (testSample, testSample, 1)
    else (0, 0, 0)
  let p := notes.foldl (synthNoteStep osc currentTime) init
  (clampSample p.1, clampSample p.2.1)

/-- Modelled from the claim's wording, for comparison with the source: the
count of MIDI notes simultaneously active at time `t`. -/
def claimActiveCount (notes : List MIDINote) (t : ℚ) : ℤ :=
  ((notes.filter fun n =>
      decide (n.StartTime ≤ t ∧ t < n.StartTime + n.Duration)).length : ℤ)

/-- Modelled from the claim's wording: one active note's stereo contribution
with base amplitude 0.2 divided by the same total active count `k` for every
note (envelope and panning as in the source). -/
def claimNoteContribution (osc : ℤ → ℚ → ℚ) (t : ℚ) (k : ℤ) (note : MIDINote) :
    ℚ × ℚ :=
  if note.StartTime ≤ t ∧ t < note.StartTime + note.Duration then
    let envelope : ℚ :=
      if t - note.StartTime < 0.05 then (t - note.StartTime) / 0.05
      else if note.StartTime + note.Duration - t < 0.05 then
        (note.StartTime + note.Duration - t) / 0.05
      else 1.0
    let sample := 0.2 / (k : ℚ) * envelope * osc note.Pitch t
    if note.Lane = 0 then (sample * 0.8, sample * 0.4)
    else if note.Lane = 1 then (sample * 0.6, sample * 0.6)
    else if note.Lane = 2 then (sample * 0.4, sample * 0.8)
    else (sample * 0.5, sample * 0.5)
  else (0, 0)

/-- Modelled from the claim's wording ("base amplitude 0.2 divided by the
count of notes simultaneously active at that time, the same divisor for
every active note"): equally-normalized contributions summed with the
calibration tone, then clipped. -/
def claimSynthesizeAtTime (osc : ℤ → ℚ → ℚ) (notes : List MIDINote) (t : ℚ) :
    ℚ × ℚ :=
  let testSample := if 0 ≤ t ∧ t < 2.0 then 0.2 * osc 69 t else 0
  let k := claimActiveCount notes t
  let contribs := notes.map (claimNoteContribution osc t k)
  (clampSample (testSample + (contribs.map Prod.fst).sum),
   clampSample (testSample + (contribs.map Prod.snd).sum))

/-- A lane-0 note sounding from 2 s to 12 s. -/
def synthNoteA : MIDINote :=
  { Pitch := 57, Velocity := 64, StartTime := 2, Duration := 10, Lane := 0 }

/-- A lane-1 note sounding from 2 s to 12 s. -/
def synthNoteB : MIDINote :=
  { Pitch := 64, Velocity := 64, StartTime := 2, Duration := 10, Lane := 1 }

/-- A constant stand-in oscillator (the divisor structure under scrutiny is
independent of the oscillator). -/
def oscOne : ℤ → ℚ → ℚ := fun _ _ => 1

/-- The minimum start time of a nonempty raw note list, as the claim words
it ("earliest = the minimum startTime over all notes"); compared against the
source's sentinel-initialized fold `earliestNoteTimeOf`. -/
def claimEarliest : List MIDINote → ℚ
  | [] => 999999
  | n :: rest => rest.foldl (fun acc m => min acc m.StartTime) n.StartTime

/-- A raw note starting beyond the 999999 s sentinel of the earliest-note
fold. -/
def farNote : MIDINote :=
  { Pitch := 60, Velocity := 64, StartTime := 1000000, Duration := 1, Lane := 1 }

/-- A freshly constructed game (menu state, nothing loaded). -/
def menuGame : Game :=
  { gameNotes := [], score := 0, combo := 0, maxCombo := 0,
    state := GameState.StateMenu, currentTime := 0, songDuration := 0,
    lanes := [{ IsPressed := false }, { IsPressed := false }, { IsPressed := false }],
    perfectHits := 0, goodHits := 0, okHits := 0, missedHits := 0, totalNotes := 0 }

/-- The one-tier downgrade ladder from the spec: Perfect→Good, Good→OK,
OK and Miss unchanged (the explicit ordered tier table of section 9). -/
def downgradeOneTier : HitAccuracy → HitAccuracy
  | HitAccuracy.Perfect => HitAccuracy.Good
  | HitAccuracy.Good => HitAccuracy.OK
  | a => a

/-- A sustained note (duration 1 s > 0.3 s) starting at t = 1 s which the
player pressed exactly on time (judgment Perfect recorded, `IsPressed`,
`IsBeingHeld`) and is still holding; not yet resolved. -/
def heldNoteC1 : GameNote :=
  { StartTime := 1, Duration := 1, Lane := 0, Y := 0, Width := 180, Height := 40,
    IsActive := true, IsHit := false, HitAccuracy := HitAccuracy.Perfect,
    IsPressed := true, PressStartTime := 1, IsBeingHeld := true, SustainProgress := 0 }

/-- A Playing session whose only note is `heldNoteC1`, with the lane-0 key
held down; no note has been scored yet. -/
def gameC1 : Game :=
  { gameNotes := [heldNoteC1], score := 0, combo := 0, maxCombo := 0,
    state := GameState.StatePlaying, currentTime := 1, songDuration := 30,
    lanes := [{ IsPressed := true }, { IsPressed := false }, { IsPressed := false }],
    perfectHits := 0, goodHits := 0, okHits := 0, missedHits := 0, totalNotes := 1 }

/-- The frame input at t = 1.25 s: lane 0 still held, no edge events. -/
def inputsC1 : List LaneInput :=
  [{ IsDown := true, JustPressed := false, JustReleased := false },
   { IsDown := false, JustPressed := false, JustReleased := false },
   { IsDown := false, JustPressed := false, JustReleased := false }]

/-- A held sustained note (Perfect recorded at press, 90% sustained) about to
be released 0.03 s after its natural end. -/
def noteC8 : GameNote :=
  { StartTime := 1, Duration := 1, Lane := 0, Y := 0, Width := 180, Height := 40,
    IsActive := true, IsHit := false, HitAccuracy := HitAccuracy.Perfect,
    IsPressed := true, PressStartTime := 1, IsBeingHeld := true, SustainProgress := 0.9 }

/-- A Playing session at t = 2.03 s whose only note is `noteC8`. -/
def gameC8 : Game :=
  { gameNotes := [noteC8], score := 0, combo := 0, maxCombo := 0,
    state := GameState.StatePlaying, currentTime := 2.03, songDuration := 30,
    lanes := [{ IsPressed := false }, { IsPressed := false }, { IsPressed := false }],
    perfectHits := 0, goodHits := 0, okHits := 0, missedHits := 0, totalNotes := 1 }

/-- A held sustained note, Perfect at press, released at 83.8% of its
duration (sustainProgress = 0.838, so `50·p = 41.9`). -/
def noteC3 : GameNote :=
  { StartTime := 0, Duration := 1, Lane := 0, Y := 0, Width := 180, Height := 40,
    IsActive := true, IsHit := false, HitAccuracy := HitAccuracy.Perfect,
    IsPressed := true, PressStartTime := 0, IsBeingHeld := true,
    SustainProgress := 0.838 }

/-- A Playing session at t = 0.838 s whose only note is `noteC3`, at the
instant its key is released (0.162 s before the note's end, a Miss-grade
release). -/
def gameC3 : Game :=
  { gameNotes := [noteC3], score := 0, combo := 0, maxCombo := 0,
    state := GameState.StatePlaying, currentTime := 0.838, songDuration := 30,
    lanes := [{ IsPressed := false }, { IsPressed := false }, { IsPressed := false }],
    perfectHits := 0, goodHits := 0, okHits := 0, missedHits := 0, totalNotes := 1 }

/-- A resolved note carrying leftover sustain-tracking state and judgment
from a finished session. -/
def noteC2 : GameNote :=
  { StartTime := 3, Duration := 1, Lane := 1, Y := 0, Width := 180, Height := 40,
    IsActive := false, IsHit := true, HitAccuracy := HitAccuracy.Perfect,
    IsPressed := true, PressStartTime := 5, IsBeingHeld := true, SustainProgress := 1/2 }

/-- A fully resolved note (hit, judgment recorded). -/
def noteC9 : GameNote :=
  { StartTime := 2, Duration := 1, Lane := 1, Y := 0, Width := 180, Height := 40,
    IsActive := true, IsHit := true, HitAccuracy := HitAccuracy.Good,
    IsPressed := false, PressStartTime := 2, IsBeingHeld := false,
    SustainProgress := 1 }

/-- A Playing session whose only note is already resolved. -/
def gameC9 : Game :=
  { gameNotes := [noteC9], score := 75, combo := 1, maxCombo := 1,
    state := GameState.StatePlaying, currentTime := 10, songDuration := 30,
    lanes := [{ IsPressed := false }, { IsPressed := false }, { IsPressed := false }],
    perfectHits := 0, goodHits := 1, okHits := 0, missedHits := 0, totalNotes := 1 }

/-- A finished (GameOver) session about to be restarted. -/
def gameC2 : Game :=
  { gameNotes := [noteC2], score := 175, combo := 2, maxCombo := 2,
    state := GameState.StateGameOver, currentTime := 30, songDuration := 30,
    lanes := [{ IsPressed := false }, { IsPressed := false }, { IsPressed := false }],
    perfectHits := 1, goodHits := 1, okHits := 0, missedHits := 0, totalNotes := 1 }

end GHero

namespace GHero

/-- C5: for every timing difference `t` the judgment is Perfect iff
`|t| ≤ 0.05`, Good iff `0.05 < |t| ≤ 0.10`, OK iff `0.10 < |t| ≤ 0.15`,
and Miss otherwise; moreover `0.04 ↦ Perfect`, `0.09 ↦ Good`,
`0.14 ↦ OK`, `0.20 ↦ Miss`, and at the exact boundary `0.05 ↦ Perfect`
while `0.051 ↦ Good`. -/
theorem calculateAccuracy_thresholds :
    (∀ t : ℚ,
      (calculateAccuracy t = HitAccuracy.Perfect ↔ |t| ≤ 0.05) ∧
      (calculateAccuracy t = HitAccuracy.Good ↔ 0.05 < |t| ∧ |t| ≤ 0.1) ∧
      (calculateAccuracy t = HitAccuracy.OK ↔ 0.1 < |t| ∧ |t| ≤ 0.15) ∧
      (calculateAccuracy t = HitAccuracy.Miss ↔ 0.15 < |t|)) ∧
    calculateAccuracy 0.04 = HitAccuracy.Perfect ∧
    calculateAccuracy 0.09 = HitAccuracy.Good ∧
    calculateAccuracy 0.14 = HitAccuracy.OK ∧
    calculateAccuracy 0.2 = HitAccuracy.Miss ∧
    calculateAccuracy 0.05 = HitAccuracy.Perfect ∧
    calculateAccuracy 0.051 = HitAccuracy.Good := by
  have habs : ∀ t : ℚ, (if t < 0 then -t else t) = |t| := by
    intro t
    by_cases h : t < 0
    · simp [h, abs_of_neg h]
    · simp [h, abs_of_nonneg (not_lt.mp h)]
  constructor
  · intro t
    unfold calculateAccuracy
    rw [habs]
    dsimp only
    split_ifs with h1 h2 h3 <;>
      refine ⟨?_, ?_, ?_, ?_⟩ <;> constructor <;> intro hh <;>
      first
        | rfl
        | (constructor <;> linarith)
        | linarith
        | (exact absurd hh (by simp))
  · refine ⟨?_, ?_, ?_, ?_, ?_, ?_⟩ <;> (unfold calculateAccuracy; norm_num)

/-- Go's `b & 0x7F` keeps the low 7 bits. -/
theorem land_127_eq_mod (b : ℕ) : b &&& 127 = b % 128 := by
  have h := Nat.and_pow_two_sub_one_eq_mod b 7
  norm_num at h
  exact h

/-- For a byte with the MSB clear, Go's `b & 0x80` is zero. -/
theorem land_128_of_lt (b : ℕ) (h : b < 128) : b &&& 128 = 0 := by
  have h1 : b &&& 2 ^ 7 = (b.testBit 7).toNat * 2 ^ 7 := Nat.and_two_pow b 7
  rw [Nat.testBit_lt_two_pow (by simpa using h)] at h1
  simpa using h1

/-- For a byte with the MSB set, Go's `b & 0x80` is `0x80`. -/
theorem land_128_of_ge (b : ℕ) (h1 : 128 ≤ b) (h2 : b < 256) : b &&& 128 = 128 := by
  have h3 : b &&& 2 ^ 7 = (b.testBit 7).toNat * 2 ^ 7 := Nat.and_two_pow b 7
  have h4 : b.testBit 7 = true := by
    rw [Nat.testBit_to_div_mod]
    norm_num
    omega
  rw [h4] at h3
  simpa using h3

/-- The 7-bit big-endian accumulation step `(value << 7) | (b & 0x7F)` is
`value * 128 + b % 128`. -/
theorem shiftLeft_or_eq (a c : ℕ) (h : c < 128) : (a <<< 7) ||| c = a * 128 + c := by
  rw [Nat.shiftLeft_eq]
  have h2 := Nat.mul_add_lt_is_or (b := c) (i := 7) (by simpa using h) a
  rw [Nat.mul_comm a (2 ^ 7), ← h2]

/-- C1 (code bug): the per-frame miss sweep does not exempt pressed notes.
`gameC1` holds a sustained note pressed on time (Perfect recorded,
`IsPressed = true`, `IsHit = false`) whose lane key is still held; running one
frame update at t = 1.25 s (inside the hold, 0.05 s past the 0.2 s grace
period) force-resolves that held note as Miss: `checkMissedNotes` only skips
notes with `!IsActive || IsHit` and never tests `IsPressed`, contradicting the
spec's sweep condition "was never pressed". -/
theorem update_sweeps_held_note :
    gameC1.gameNotes.map (fun n => (n.IsPressed, n.IsHit, n.IsActive)) =
      [(true, false, true)] ∧
    (Update gameC1 1.25 inputsC1).gameNotes.map
      (fun n => (n.IsHit, n.HitAccuracy, n.IsPressed)) =
      [(true, HitAccuracy.Miss, true)] ∧
    (Update gameC1 1.25 inputsC1).missedHits = 1 ∧
    (Update gameC1 1.25 inputsC1).combo = 0 := by
  refine ⟨rfl, ?_, ?_, ?_⟩ <;>
    norm_num [Update, gameC1, heldNoteC1, inputsC1, updateInput, updateInputAux,
      updateNotes, updateNoteStep, updateSustainedNotes, updateSustainedNotesAux,
      updateSustainedNoteStep, checkMissedNotes, checkMissedNotesAux,
      checkMissedNoteStep, checkAllNotesProcessed, EndGame, addScore,
      lanePressedAt, HIT_LINE_Y, NOTE_SPEED, SCREEN_HEIGHT]

/-- C2 (code bug): `StartGame` resets the statistics, the clock and each
note's `IsActive`/`IsHit` flags, but leaves every note's sustain-tracking
fields (`IsPressed`, `PressStartTime`, `IsBeingHeld`, `SustainProgress`) and
its recorded judgment unchanged, so a restarted session does not return the
notes' mutable state to its initial value. -/
theorem startGame_keeps_sustain_state :
    (StartGame gameC2).score = 0 ∧
    (StartGame gameC2).combo = 0 ∧
    (StartGame gameC2).maxCombo = 0 ∧
    (StartGame gameC2).perfectHits = 0 ∧
    (StartGame gameC2).goodHits = 0 ∧
    (StartGame gameC2).okHits = 0 ∧
    (StartGame gameC2).missedHits = 0 ∧
    (StartGame gameC2).currentTime = 0 ∧
    (StartGame gameC2).state = GameState.StatePlaying ∧
    (StartGame gameC2).gameNotes.map (fun n => (n.IsActive, n.IsHit)) =
      [(true, false)] ∧
    (StartGame gameC2).gameNotes.map
      (fun n => (n.IsPressed, n.PressStartTime, n.IsBeingHeld, n.SustainProgress,
                 n.HitAccuracy)) =
      [(true, 5, true, 1/2, HitAccuracy.Perfect)] := by
  refine ⟨?_, ?_, ?_, ?_, ?_, ?_, ?_, ?_, ?_, ?_, ?_⟩ <;>
    norm_num [StartGame, gameC2, noteC2]

/-- C7: the variable-length-integer decoder accumulates 7 bits per byte,
big-endian, continues while the MSB is 1, reads at most 4 bytes (even when
the 4th byte still has its MSB set), and decodes `[0x7F] ↦ 127`,
`[0x81, 0x00] ↦ 128`, `[0xFF, 0x7F] ↦ 16383`. -/
theorem readVariableLength_spec :
    readVariableLength [0x7F] = some (127, []) ∧
    readVariableLength [0x81, 0x00] = some (128, []) ∧
    readVariableLength [0xFF, 0x7F] = some (16383, []) ∧
    (∀ (b : ℕ) (rest : List ℕ), b < 128 →
      readVariableLength (b :: rest) = some (b, rest)) ∧
    (∀ (b1 b2 : ℕ) (rest : List ℕ), 128 ≤ b1 → b1 < 256 → b2 < 128 →
      readVariableLength (b1 :: b2 :: rest) = some ((b1 - 128) * 128 + b2, rest)) ∧
    (∀ (b1 b2 b3 b4 : ℕ) (rest : List ℕ),
      128 ≤ b1 → b1 < 256 → 128 ≤ b2 → b2 < 256 → 128 ≤ b3 → b3 < 256 → b4 < 256 →
      readVariableLength (b1 :: b2 :: b3 :: b4 :: rest) =
        some ((((b1 - 128) * 128 + (b2 - 128)) * 128 + (b3 - 128)) * 128 + b4 % 128,
              rest)) := by
  refine ⟨by decide, by decide, by decide, ?_, ?_, ?_⟩
  · intro b rest hb
    simp only [readVariableLength, readVariableLengthAux, land_127_eq_mod,
      land_128_of_lt b hb, shiftLeft_or_eq 0 (b % 128) (Nat.mod_lt b (by norm_num))]
    have : b % 128 = b := Nat.mod_eq_of_lt hb
    simp [this]
  · intro b1 b2 rest h1 h2 h3
    simp only [readVariableLength, readVariableLengthAux, land_127_eq_mod,
      land_128_of_ge b1 h1 h2, land_128_of_lt b2 h3,
      shiftLeft_or_eq _ _ (Nat.mod_lt _ (by norm_num))]
    have e1 : b1 % 128 = b1 - 128 := by omega
    have e2 : b2 % 128 = b2 := Nat.mod_eq_of_lt h3
    simp [e1, e2]
  · intro b1 b2 b3 b4 rest h1 h2 h3 h4 h5 h6 h7
    have e1 : b1 % 128 = b1 - 128 := by omega
    have e2 : b2 % 128 = b2 - 128 := by omega
    have e3 : b3 % 128 = b3 - 128 := by omega
    by_cases hb4 : b4 < 128
    · simp only [readVariableLength, readVariableLengthAux, land_127_eq_mod,
        land_128_of_ge b1 h1 h2, land_128_of_ge b2 h3 h4, land_128_of_ge b3 h5 h6,
        land_128_of_lt b4 hb4, shiftLeft_or_eq _ _ (Nat.mod_lt _ (by norm_num))]
      simp [e1, e2, e3]
    · simp only [readVariableLength, readVariableLengthAux, land_127_eq_mod,
        land_128_of_ge b1 h1 h2, land_128_of_ge b2 h3 h4, land_128_of_ge b3 h5 h6,
        land_128_of_ge b4 (by omega) h7, shiftLeft_or_eq _ _ (Nat.mod_lt _ (by norm_num))]
      simp [e1, e2, e3]

/-- C7 witness: the decoder caps at 4 bytes, so `[0xFF, 0xFF, 0xFF, 0xFF]`
decodes to `2^28 − 1` with nothing consumed beyond the 4th byte. -/
theorem readVariableLength_spec_witness :
    readVariableLength [255, 255, 255, 255] = some (268435455, []) := by
  have h := readVariableLength_spec.2.2.2.2.2 255 255 255 255 []
    (by norm_num) (by norm_num) (by norm_num) (by norm_num) (by norm_num)
    (by norm_num) (by norm_num)
  norm_num at h
  exact h

/-- C10: the guitar-range filter of `parseMIDIFile` keeps exactly the parsed
notes whose pitch lies in `[40, 84]`, in order and with multiplicity; every
note with pitch below 40 or above 84 is dropped. -/
theorem guitarNotesFilter_spec :
    ∀ notes : List MIDINote,
      guitarNotesFilter notes =
        notes.filter (fun n => decide (40 ≤ n.Pitch ∧ n.Pitch ≤ 84)) ∧
      ∀ n : MIDINote, n ∈ guitarNotesFilter notes ↔
        (n ∈ notes ∧ 40 ≤ n.Pitch ∧ n.Pitch ≤ 84) := by
  have hfil : ∀ notes : List MIDINote,
      guitarNotesFilter notes =
        notes.filter (fun n => decide (40 ≤ n.Pitch ∧ n.Pitch ≤ 84)) := by
    intro notes
    induction notes with
    | nil => rfl
    | cons a l ih =>
        by_cases h : 40 ≤ a.Pitch ∧ a.Pitch ≤ 84 <;>
          simp [guitarNotesFilter, h, List.filter_cons, ih]
  intro notes
  refine ⟨hfil notes, ?_⟩
  intro n
  rw [hfil]
  simp [List.mem_filter]

/-- Whether a note is eligible for `handleKeyRelease` in the given lane:
active, in the lane, currently pressed, not yet resolved. -/
def ReleaseEligible (laneIndex : ℤ) (m : GameNote) : Prop :=
  m.IsActive = true ∧ m.Lane = laneIndex ∧ m.IsPressed = true ∧ m.IsHit = false

/-- Notes the release scan skips are returned unchanged and the scan
continues past them. -/
theorem handleKeyReleaseAux_skip (now : ℚ) (laneIndex : ℤ) :
    ∀ (pre rest : List GameNote) (g : Game),
      (∀ m ∈ pre, ¬ReleaseEligible laneIndex m) →
      handleKeyReleaseAux now laneIndex (pre ++ rest) g =
        ((pre ++ (handleKeyReleaseAux now laneIndex rest g).1),
         (handleKeyReleaseAux now laneIndex rest g).2) := by
  intro pre
  induction pre with
  | nil => intro rest g _; simp
  | cons m pre ih =>
      intro rest g hpre
      have hm : ¬ReleaseEligible laneIndex m := hpre m (by simp)
      have hcond : ¬m.IsActive = true ∨ m.Lane ≠ laneIndex ∨
          ¬m.IsPressed = true ∨ m.IsHit = true := by
        unfold ReleaseEligible at hm
        by_cases h1 : m.IsActive = true <;> by_cases h2 : m.Lane = laneIndex <;>
          by_cases h3 : m.IsPressed = true <;> by_cases h4 : m.IsHit = true <;>
          simp_all
      have hrec := ih rest g (fun m hmem => hpre m (by simp [hmem]))
      simp only [List.cons_append, handleKeyReleaseAux]
      rw [if_pos (by simpa using hcond)]
      simp [hrec]

/-- The release scan resolves the first eligible note: it clears the
pressed/held flags, marks it hit, scores the (possibly downgraded) final
accuracy, and adds the truncated sustain bonus when progress exceeds 0.8. -/
theorem handleKeyReleaseAux_match (now : ℚ) (laneIndex : ℤ) (n : GameNote)
    (post : List GameNote) (g : Game)
    (hact : n.IsActive = true) (hlane : n.Lane = laneIndex)
    (hpressed : n.IsPressed = true) (hhit : n.IsHit = false) :
    handleKeyReleaseAux now laneIndex (n :: post) g =
      ({ n with IsPressed := false, IsBeingHeld := false, IsHit := true } :: post,
       (if 0.8 < n.SustainProgress then
          { addScore g
             (if calculateAccuracy (now - (n.StartTime + n.Duration)) = HitAccuracy.Miss
              then downgradeOneTier n.HitAccuracy else n.HitAccuracy) with
            score := (addScore g
             (if calculateAccuracy (now - (n.StartTime + n.Duration)) = HitAccuracy.Miss
              then downgradeOneTier n.HitAccuracy else n.HitAccuracy)).score +
              goTrunc (50 * n.SustainProgress) }
        else addScore g
             (if calculateAccuracy (now - (n.StartTime + n.Duration)) = HitAccuracy.Miss
              then downgradeOneTier n.HitAccuracy else n.HitAccuracy))) := by
  have hdg : (if n.HitAccuracy = HitAccuracy.Perfect then HitAccuracy.Good
              else if n.HitAccuracy = HitAccuracy.Good then HitAccuracy.OK
              else n.HitAccuracy) = downgradeOneTier n.HitAccuracy := by
    cases h : n.HitAccuracy <;> simp [downgradeOneTier]
  simp only [handleKeyReleaseAux]
  rw [if_neg (by simp [hact, hlane, hpressed, hhit])]
  simp only [hdg]

/-- C8: on key release, the first eligible note (active, in the lane,
pressed, unresolved) is resolved — pressed/held flags cleared, `IsHit` set —
and scored with `downgradeOneTier` applied to the recorded start judgment
exactly when the release-timing judgment (from `now − (start + duration)`
with the standard thresholds) is Miss, and with the start judgment otherwise;
the tier table downgrades Perfect→Good and Good→OK and leaves OK and Miss
unchanged. -/
theorem handleKeyRelease_downgrade_spec (g : Game) (laneIndex : ℤ)
    (pre post : List GameNote) (n : GameNote)
    (hsplit : g.gameNotes = pre ++ n :: post)
    (hpre : ∀ m ∈ pre, ¬ReleaseEligible laneIndex m)
    (hn : ReleaseEligible laneIndex n) :
    handleKeyRelease g laneIndex =
      { (if 0.8 < n.SustainProgress then
          { addScore g
             (if calculateAccuracy (g.currentTime - (n.StartTime + n.Duration)) =
                  HitAccuracy.Miss
              then downgradeOneTier n.HitAccuracy else n.HitAccuracy) with
            score := (addScore g
             (if calculateAccuracy (g.currentTime - (n.StartTime + n.Duration)) =
                  HitAccuracy.Miss
              then downgradeOneTier n.HitAccuracy else n.HitAccuracy)).score +
              goTrunc (50 * n.SustainProgress) }
         else addScore g
             (if calculateAccuracy (g.currentTime - (n.StartTime + n.Duration)) =
                  HitAccuracy.Miss
              then downgradeOneTier n.HitAccuracy else n.HitAccuracy)) with
        gameNotes :=
          pre ++ ({ n with IsPressed := false, IsBeingHeld := false, IsHit := true }
            :: post) } ∧
    downgradeOneTier HitAccuracy.Perfect = HitAccuracy.Good ∧
    downgradeOneTier HitAccuracy.Good = HitAccuracy.OK ∧
    downgradeOneTier HitAccuracy.OK = HitAccuracy.OK ∧
    downgradeOneTier HitAccuracy.Miss = HitAccuracy.Miss := by
  obtain ⟨hact, hlane, hpressed, hhit⟩ := hn
  refine ⟨?_, rfl, rfl, rfl, rfl⟩
  unfold handleKeyRelease
  rw [hsplit, handleKeyReleaseAux_skip g.currentTime laneIndex pre (n :: post) g hpre,
    handleKeyReleaseAux_match g.currentTime laneIndex n post g hact hlane hpressed hhit]

/-- C8 witness: releasing `noteC8` (Perfect at press) 0.03 s after its end is
a Perfect release, so the score is 100 + a truncated sustain bonus of 45,
and the note is resolved. -/
theorem handleKeyRelease_downgrade_spec_witness :
    (handleKeyRelease gameC8 0).score = 145 ∧
    (handleKeyRelease gameC8 0).gameNotes.map GameNote.IsHit = [true] ∧
    (handleKeyRelease gameC8 0).perfectHits = 1 := by
  have h := (handleKeyRelease_downgrade_spec gameC8 0 [] [] noteC8 rfl
    (by intro m hm; simp at hm) ⟨rfl, rfl, rfl, rfl⟩).1
  rw [h]
  have e1 : (if calculateAccuracy
        (gameC8.currentTime - (noteC8.StartTime + noteC8.Duration)) = HitAccuracy.Miss
      then downgradeOneTier noteC8.HitAccuracy else noteC8.HitAccuracy) =
      HitAccuracy.Perfect := by
    norm_num [calculateAccuracy, gameC8, noteC8]
    intro hh
    exact HitAccuracy.noConfusion hh
  rw [e1, if_pos (by norm_num [noteC8] : (0.8 : ℚ) < noteC8.SustainProgress)]
  have e2 : goTrunc (50 * noteC8.SustainProgress) = 45 := by
    norm_num [goTrunc, noteC8]
  rw [e2]
  norm_num [addScore, gameC8, noteC8]

/-- A note the sustain loop has already resolved is returned unchanged. -/
theorem updateSustainedNoteStep_hit (lanes : List Lane) (now : ℚ) (n : GameNote)
    (g : Game) (h : n.IsHit = true) :
    updateSustainedNoteStep lanes now n g = (n, g) := by
  simp [updateSustainedNoteStep, h]

/-- On a one-note list, `updateSustainedNotes` is the single loop-body step. -/
theorem updateSustainedNotes_single (g : Game) (n : GameNote)
    (h : g.gameNotes = [n]) :
    updateSustainedNotes g =
      { (updateSustainedNoteStep g.lanes g.currentTime n g).2 with
        gameNotes := [(updateSustainedNoteStep g.lanes g.currentTime n g).1] } := by
  unfold updateSustainedNotes
  rw [h]
  simp [updateSustainedNotesAux]

/-- The auto-complete branch of the sustain loop: when the lane is still
held and the clock has reached the note's end, the clamped progress is
exactly 1, the note is resolved with its recorded judgment, and the sustain
bonus is `int32(50 · 1) = 50`. -/
theorem updateSustainedNoteStep_auto (lanes : List Lane) (now : ℚ) (n : GameNote)
    (g : Game)
    (hact : n.IsActive = true) (hpressed : n.IsPressed = true) (hhit : n.IsHit = false)
    (hlane : lanePressedAt lanes n.Lane = true)
    (hdur : 0 < n.Duration) (hend : n.StartTime + n.Duration ≤ now) :
    updateSustainedNoteStep lanes now n g =
      ({ n with SustainProgress := 1, IsPressed := false, IsBeingHeld := false,
                IsHit := true },
       { addScore g n.HitAccuracy with
         score := (addScore g n.HitAccuracy).score + 50 }) := by
  have hp1 : 1 ≤ (now - n.StartTime) / n.Duration := by
    rw [le_div_iff₀ hdur]
    linarith
  have hclamp : (if (now - n.StartTime) / n.Duration < 0 then 0
       else if 1.0 < (now - n.StartTime) / n.Duration then 1.0
       else (now - n.StartTime) / n.Duration) = (1 : ℚ) := by
    rw [if_neg (by linarith)]
    by_cases hgt : (1.0 : ℚ) < (now - n.StartTime) / n.Duration
    · rw [if_pos hgt]
      norm_num
    · rw [if_neg hgt]
      have h2 := not_lt.mp hgt
      norm_num at h2
      linarith
  have hb : goTrunc (50 * (1 : ℚ)) = 50 := by
    norm_num [goTrunc]
  simp only [updateSustainedNoteStep]
  rw [if_neg (by simp [hact, hpressed, hhit]), if_pos hlane]
  simp only [hclamp]
  simp only [hend, if_pos, if_true]
  rw [if_pos (by norm_num : (0.8 : ℚ) < (1 : ℚ)), hb]

/-- C3 counterexample: the sustain bonus is Go's `int32` truncation, not
rounding.  Releasing `noteC3` (Perfect at press, sustainProgress 0.838, a
Miss-grade release so the judgment downgrades to Good) yields
75 + int32(41.9) = 75 + 41 = 116 points, while the claim's
75 + round(50·0.838) = 75 + 42 = 117. -/
theorem sustainBonus_not_round :
    (handleKeyRelease gameC3 0).score = 116 ∧
    (75 : ℤ) + round ((50 : ℚ) * noteC3.SustainProgress) = 117 ∧
    (116 : ℤ) ≠ 117 := by
  refine ⟨?_, ?_, by norm_num⟩
  · have hmatch := handleKeyReleaseAux_match gameC3.currentTime 0 noteC3 [] gameC3
      rfl rfl rfl rfl
    have hrel : handleKeyRelease gameC3 0 =
        { (handleKeyReleaseAux gameC3.currentTime 0 [noteC3] gameC3).2 with
          gameNotes := (handleKeyReleaseAux gameC3.currentTime 0 [noteC3] gameC3).1 } := rfl
    rw [hrel, hmatch]
    have e1 : (if calculateAccuracy
          (gameC3.currentTime - (noteC3.StartTime + noteC3.Duration)) = HitAccuracy.Miss
        then downgradeOneTier noteC3.HitAccuracy else noteC3.HitAccuracy) =
        HitAccuracy.Good := by
      have : calculateAccuracy
          (gameC3.currentTime - (noteC3.StartTime + noteC3.Duration)) =
          HitAccuracy.Miss := by
        norm_num [calculateAccuracy, gameC3, noteC3]
      rw [this]
      rfl
    rw [e1, if_pos (by norm_num [noteC3] : (0.8 : ℚ) < noteC3.SustainProgress)]
    have e2 : goTrunc (50 * noteC3.SustainProgress) = 41 := by
      norm_num [goTrunc, noteC3]
    rw [e2]
    norm_num [addScore, gameC3]
  · rw [show (50 : ℚ) * noteC3.SustainProgress = 41.9 by norm_num [noteC3]]
    rw [round_eq]
    norm_num [Int.floor_eq_iff]

/-- C3 (amended): for a sustained note resolved with sustainProgress > 0.8
the score receives a sustain bonus of exactly `int32(50·sustainProgress)`
(Go truncation toward zero, i.e. `⌊50·p⌋`, not `round`): the auto-complete
path fires only with the clamped progress equal to 1 and adds exactly 50,
and the key-release path adds exactly `goTrunc (50·p)`; the bonus is added
exactly once — a note resolved by one path is skipped by the other. -/
theorem sustainBonus_trunc_once (n : GameNote) (g : Game)
    (hnotes : g.gameNotes = [n])
    (hact : n.IsActive = true) (hpressed : n.IsPressed = true) (hhit : n.IsHit = false)
    (hdur : 0 < n.Duration) :
    (lanePressedAt g.lanes n.Lane = true → n.StartTime + n.Duration ≤ g.currentTime →
      (updateSustainedNotes g).score =
        (addScore g n.HitAccuracy).score + goTrunc (50 * (1 : ℚ)) ∧
      goTrunc (50 * (1 : ℚ)) = 50 ∧
      (updateSustainedNotes g).gameNotes.map GameNote.IsHit = [true] ∧
      handleKeyRelease (updateSustainedNotes g) n.Lane = updateSustainedNotes g) ∧
    (0.8 < n.SustainProgress →
      (handleKeyRelease g n.Lane).score =
        (addScore g
          (if calculateAccuracy (g.currentTime - (n.StartTime + n.Duration)) =
               HitAccuracy.Miss
           then downgradeOneTier n.HitAccuracy else n.HitAccuracy)).score +
          goTrunc (50 * n.SustainProgress) ∧
      (handleKeyRelease g n.Lane).gameNotes.map GameNote.IsHit = [true] ∧
      updateSustainedNotes (handleKeyRelease g n.Lane) = handleKeyRelease g n.Lane) := by
  constructor
  · intro hlane hend
    have hstep := updateSustainedNoteStep_auto g.lanes g.currentTime n g hact hpressed
      hhit hlane hdur hend
    have hu := updateSustainedNotes_single g n hnotes
    rw [hstep] at hu
    refine ⟨by rw [hu]; norm_num [goTrunc], by norm_num [goTrunc], by rw [hu]; simp, ?_⟩
    rw [hu]
    unfold handleKeyRelease
    simp [handleKeyReleaseAux]
  · intro hprog
    have hmatch := handleKeyReleaseAux_match g.currentTime n.Lane n [] g hact rfl
      hpressed hhit
    have hrel : handleKeyRelease g n.Lane =
        { (handleKeyReleaseAux g.currentTime n.Lane g.gameNotes g).2 with
          gameNotes := (handleKeyReleaseAux g.currentTime n.Lane g.gameNotes g).1 } := rfl
    rw [hnotes] at hrel
    rw [hrel, hmatch, if_pos hprog]
    refine ⟨by simp, by simp, ?_⟩
    rw [updateSustainedNotes_single _ _ rfl, updateSustainedNoteStep_hit _ _ _ _ rfl]

/-- C3 witness: instantiating the truncated-bonus theorem at `gameC3`
(release path, progress 0.838, Miss-grade release downgrading Perfect to
Good) gives 75 + ⌊41.9⌋ = 116 points and a resolved note. -/
theorem sustainBonus_trunc_once_witness :
    (handleKeyRelease gameC3 noteC3.Lane).score = 116 ∧
    (handleKeyRelease gameC3 noteC3.Lane).gameNotes.map GameNote.IsHit = [true] := by
  have h := (sustainBonus_trunc_once noteC3 gameC3 rfl rfl rfl rfl (by norm_num [noteC3])).2
    (by norm_num [noteC3])
  refine ⟨?_, h.2.1⟩
  rw [h.1]
  have e1 : (if calculateAccuracy
        (gameC3.currentTime - (noteC3.StartTime + noteC3.Duration)) = HitAccuracy.Miss
      then downgradeOneTier noteC3.HitAccuracy else noteC3.HitAccuracy) =
      HitAccuracy.Good := by
    have : calculateAccuracy
        (gameC3.currentTime - (noteC3.StartTime + noteC3.Duration)) =
        HitAccuracy.Miss := by
      norm_num [calculateAccuracy, gameC3, noteC3]
    rw [this]
    rfl
  rw [e1]
  have e2 : goTrunc (50 * noteC3.SustainProgress) = 41 := by
    norm_num [goTrunc, noteC3]
  rw [e2]
  norm_num [addScore, gameC3]

/-- A note the miss sweep has already seen resolved is returned unchanged. -/
theorem checkMissedNoteStep_hit (now : ℚ) (n : GameNote) (g : Game)
    (h : n.IsHit = true) : checkMissedNoteStep now n g = (n, g) := by
  simp [checkMissedNoteStep, h]

/-- `addScore` never touches the note list. -/
theorem addScore_gameNotes (g : Game) (a : HitAccuracy) :
    (addScore g a).gameNotes = g.gameNotes := by
  cases a <;> simp only [addScore] <;> split <;> split <;> rfl

/-- The sustain loop leaves every already-resolved note unchanged. -/
theorem updateSustainedNotesAux_hitFrozen (lanes : List Lane) (now : ℚ) :
    ∀ (ns : List GameNote) (g : Game),
      List.Forall₂ (fun a b => a.IsHit = true → b = a) ns
        (updateSustainedNotesAux lanes now ns g).1 := by
  intro ns
  induction ns with
  | nil => intro g; simp [updateSustainedNotesAux]
  | cons m rest ih =>
      intro g
      simp only [updateSustainedNotesAux]
      refine List.Forall₂.cons ?_ (ih _)
      intro hm
      rw [updateSustainedNoteStep_hit _ _ _ _ hm]

/-- The miss sweep leaves every already-resolved note unchanged. -/
theorem checkMissedNotesAux_hitFrozen (now : ℚ) :
    ∀ (ns : List GameNote) (g : Game),
      List.Forall₂ (fun a b => a.IsHit = true → b = a) ns
        (checkMissedNotesAux now ns g).1 := by
  intro ns
  induction ns with
  | nil => intro g; simp [checkMissedNotesAux]
  | cons m rest ih =>
      intro g
      simp only [checkMissedNotesAux]
      refine List.Forall₂.cons ?_ (ih _)
      intro hm
      rw [checkMissedNoteStep_hit _ _ _ hm]

/-- The release scan leaves every already-resolved note unchanged. -/
theorem handleKeyReleaseAux_hitFrozen (now : ℚ) (laneIndex : ℤ) :
    ∀ (ns : List GameNote) (g : Game),
      List.Forall₂ (fun a b => a.IsHit = true → b = a) ns
        (handleKeyReleaseAux now laneIndex ns g).1 := by
  intro ns
  induction ns with
  | nil => intro g; simp [handleKeyReleaseAux]
  | cons m rest ih =>
      intro g
      by_cases hc : ¬m.IsActive = true ∨ m.Lane ≠ laneIndex ∨
          ¬m.IsPressed = true ∨ m.IsHit = true
      · simp only [handleKeyReleaseAux]
        rw [if_pos hc]
        exact List.Forall₂.cons (fun _ => rfl) (ih g)
      · push_neg at hc
        simp only [handleKeyReleaseAux]
        rw [if_neg (by push_neg; exact hc)]
        refine List.Forall₂.cons ?_
          (List.forall₂_same.mpr fun x _ _ => rfl)
        intro hm
        exact absurd hm (by simp [hc.2.2.2])

/-- The chosen index of the closest-note scan points at a note that is
neither resolved nor currently pressed (unless it was the carried-in best
candidate). -/
theorem findClosestNoteAux_choice (now : ℚ) (laneIndex : ℤ) :
    ∀ (ns : List GameNote) (i : ℕ) (d : ℚ) (best : Option ℕ) (k : ℕ),
      findClosestNoteAux now laneIndex ns i d best = some k →
      best = some k ∨
      ∃ (j : ℕ) (hj : j < ns.length),
        i + j = k ∧ (ns.get ⟨j, hj⟩).IsHit = false ∧
        (ns.get ⟨j, hj⟩).IsPressed = false := by
  intro ns
  induction ns with
  | nil =>
      intro i d best k h
      simp only [findClosestNoteAux] at h
      exact Or.inl h
  | cons m rest ih =>
      intro i d best k h
      simp only [findClosestNoteAux] at h
      by_cases hc : ¬m.IsActive = true ∨ m.IsHit = true ∨ m.IsPressed = true ∨
          m.Lane ≠ laneIndex
      · rw [if_pos hc] at h
        rcases ih _ _ _ _ h with hb | ⟨j, hj, hjk, h1, h2⟩
        · exact Or.inl hb
        · right
          refine ⟨j + 1, by simpa using Nat.succ_lt_succ hj, by omega, ?_, ?_⟩
          · simpa using h1
          · simpa using h2
      · rw [if_neg hc] at h
        push_neg at hc
        by_cases hd : m.StartTime - now < d ∧ -0.2 < m.StartTime - now
        · rw [if_pos hd] at h
          rcases ih _ _ _ _ h with hb | ⟨j, hj, hjk, h1, h2⟩
          · right
            refine ⟨0, by simp, ?_, ?_, ?_⟩
            · have : i = k := by simpa using hb
              omega
            · simpa using hc.2.1
            · simpa using hc.2.2.1
          · right
            refine ⟨j + 1, by simpa using Nat.succ_lt_succ hj, by omega, ?_, ?_⟩
            · simpa using h1
            · simpa using h2
        · rw [if_neg hd] at h
          rcases ih _ _ _ _ h with hb | ⟨j, hj, hjk, h1, h2⟩
          · exact Or.inl hb
          · right
            refine ⟨j + 1, by simpa using Nat.succ_lt_succ hj, by omega, ?_, ?_⟩
            · simpa using h1
            · simpa using h2

/-- The note `findClosestNote` selects is unresolved and unpressed. -/
theorem findClosestNote_choice (g : Game) (laneIndex : ℤ) (k : ℕ)
    (h : findClosestNote g laneIndex = some k) :
    ∃ hk : k < g.gameNotes.length,
      (g.gameNotes.get ⟨k, hk⟩).IsHit = false ∧
      (g.gameNotes.get ⟨k, hk⟩).IsPressed = false := by
  rcases findClosestNoteAux_choice g.currentTime laneIndex g.gameNotes 0 1000000 none k h
    with hb | ⟨j, hj, hjk, h1, h2⟩
  · exact absurd hb (by simp)
  · have : j = k := by omega
    subst this
    exact ⟨hj, h1, h2⟩

/-- Overwriting an index whose note is unresolved leaves every resolved
note unchanged. -/
theorem forall₂_hitFrozen_set :
    ∀ (ns : List GameNote) (k : ℕ) (v : GameNote),
      (∀ hk : k < ns.length, (ns.get ⟨k, hk⟩).IsHit = false) →
      List.Forall₂ (fun a b => a.IsHit = true → b = a) ns (ns.set k v) := by
  intro ns
  induction ns with
  | nil => intro k v _; simp
  | cons m rest ih =>
      intro k v hk
      cases k with
      | zero =>
          simp only [List.set]
          refine List.Forall₂.cons ?_ (List.forall₂_same.mpr fun x _ _ => rfl)
          intro hm
          exact absurd hm (by simpa using hk (by simp))
      | succ k =>
          simp only [List.set]
          refine List.Forall₂.cons (fun _ => rfl) (ih k v fun h => ?_)
          simpa using hk (by simpa using Nat.succ_lt_succ h)

/-- The key-press handler leaves every already-resolved note unchanged. -/
theorem handleKeyPress_hitFrozen (g : Game) (laneIndex : ℤ) :
    List.Forall₂ (fun a b => a.IsHit = true → b = a) g.gameNotes
      (handleKeyPress g laneIndex).gameNotes := by
  have hrefl : List.Forall₂ (fun a b : GameNote => a.IsHit = true → b = a)
      g.gameNotes g.gameNotes := List.forall₂_same.mpr fun x _ _ => rfl
  unfold handleKeyPress
  cases hf : findClosestNote g laneIndex with
  | none => exact hrefl
  | some i =>
      dsimp only
      obtain ⟨hk, hhit, hpr⟩ := findClosestNote_choice g laneIndex i hf
      cases hg : g.gameNotes.get? i with
      | none => exact hrefl
      | some note =>
          dsimp only
          by_cases hacc :
              calculateAccuracy (g.currentTime - note.StartTime) ≠ HitAccuracy.Miss
          · rw [if_pos hacc]
            by_cases hsus : isSustainedNote note = true
            · rw [if_pos hsus]
              exact forall₂_hitFrozen_set g.gameNotes i _ fun _ => hhit
            · rw [if_neg hsus]
              rw [addScore_gameNotes]
              exact forall₂_hitFrozen_set g.gameNotes i _ fun _ => hhit
          · rw [if_neg hacc]
            exact hrefl

/-- When every note is already resolved the sustain loop is the identity. -/
theorem updateSustainedNotesAux_allHit (lanes : List Lane) (now : ℚ) :
    ∀ (ns : List GameNote) (g : Game), (∀ m ∈ ns, m.IsHit = true) →
      updateSustainedNotesAux lanes now ns g = (ns, g) := by
  intro ns
  induction ns with
  | nil => intro g _; rfl
  | cons m rest ih =>
      intro g hall
      simp only [updateSustainedNotesAux]
      rw [updateSustainedNoteStep_hit _ _ _ _ (hall m (by simp)),
        ih g fun x hx => hall x (by simp [hx])]

/-- When every note is already resolved the miss sweep is the identity. -/
theorem checkMissedNotesAux_allHit (now : ℚ) :
    ∀ (ns : List GameNote) (g : Game), (∀ m ∈ ns, m.IsHit = true) →
      checkMissedNotesAux now ns g = (ns, g) := by
  intro ns
  induction ns with
  | nil => intro g _; rfl
  | cons m rest ih =>
      intro g hall
      simp only [checkMissedNotesAux]
      rw [checkMissedNoteStep_hit _ _ _ (hall m (by simp)),
        ih g fun x hx => hall x (by simp [hx])]

/-- When every note is already resolved the release scan is the identity. -/
theorem handleKeyReleaseAux_allHit (now : ℚ) (laneIndex : ℤ) :
    ∀ (ns : List GameNote) (g : Game), (∀ m ∈ ns, m.IsHit = true) →
      handleKeyReleaseAux now laneIndex ns g = (ns, g) := by
  intro ns
  induction ns with
  | nil => intro g _; rfl
  | cons m rest ih =>
      intro g hall
      simp only [handleKeyReleaseAux]
      rw [if_pos (Or.inr (Or.inr (Or.inr (hall m (by simp))))),
        ih g fun x hx => hall x (by simp [hx])]

/-- When every note is already resolved no key press finds a target. -/
theorem handleKeyPress_allHit (g : Game) (laneIndex : ℤ)
    (hall : ∀ m ∈ g.gameNotes, m.IsHit = true) :
    handleKeyPress g laneIndex = g := by
  cases hf : findClosestNote g laneIndex with
  | none => unfold handleKeyPress; rw [hf]
  | some k =>
      obtain ⟨hk, hhit, -⟩ := findClosestNote_choice g laneIndex k hf
      have hm := hall _ (List.get_mem g.gameNotes k hk)
      rw [hm] at hhit
      cases hhit

/-- C9: each resolution path (short-note press, sustained auto-complete /
early release, key-release completion, miss sweep) leaves every note with
`IsHit = true` completely unchanged — in particular its judgment is frozen
and `IsHit` never reverts to false — and on a session whose notes are all
resolved, all four paths are the identity on the whole game state, so no
further score is contributed for a resolved note. -/
theorem resolved_note_frozen (g : Game) (laneIndex : ℤ) :
    List.Forall₂ (fun a b => a.IsHit = true → b = a) g.gameNotes
      (updateSustainedNotes g).gameNotes ∧
    List.Forall₂ (fun a b => a.IsHit = true → b = a) g.gameNotes
      (checkMissedNotes g).gameNotes ∧
    List.Forall₂ (fun a b => a.IsHit = true → b = a) g.gameNotes
      (handleKeyRelease g laneIndex).gameNotes ∧
    List.Forall₂ (fun a b => a.IsHit = true → b = a) g.gameNotes
      (handleKeyPress g laneIndex).gameNotes ∧
    List.Forall₂ (fun a b => a.IsHit = true → b.IsHit = true) g.gameNotes
      (updateSustainedNotes g).gameNotes ∧
    List.Forall₂ (fun a b => a.IsHit = true → b.IsHit = true) g.gameNotes
      (checkMissedNotes g).gameNotes ∧
    List.Forall₂ (fun a b => a.IsHit = true → b.IsHit = true) g.gameNotes
      (handleKeyRelease g laneIndex).gameNotes ∧
    List.Forall₂ (fun a b => a.IsHit = true → b.IsHit = true) g.gameNotes
      (handleKeyPress g laneIndex).gameNotes ∧
    ((∀ m ∈ g.gameNotes, m.IsHit = true) →
      updateSustainedNotes g = g ∧ checkMissedNotes g = g ∧
      handleKeyRelease g laneIndex = g ∧ handleKeyPress g laneIndex = g) := by
  have h1 : List.Forall₂ (fun a b => a.IsHit = true → b = a) g.gameNotes
      (updateSustainedNotes g).gameNotes :=
    updateSustainedNotesAux_hitFrozen g.lanes g.currentTime g.gameNotes g
  have h2 : List.Forall₂ (fun a b => a.IsHit = true → b = a) g.gameNotes
      (checkMissedNotes g).gameNotes :=
    checkMissedNotesAux_hitFrozen g.currentTime g.gameNotes g
  have h3 : List.Forall₂ (fun a b => a.IsHit = true → b = a) g.gameNotes
      (handleKeyRelease g laneIndex).gameNotes :=
    handleKeyReleaseAux_hitFrozen g.currentTime laneIndex g.gameNotes g
  have h4 := handleKeyPress_hitFrozen g laneIndex
  have hmono : ∀ {l₁ l₂ : List GameNote},
      List.Forall₂ (fun a b => a.IsHit = true → b = a) l₁ l₂ →
      List.Forall₂ (fun a b => a.IsHit = true → b.IsHit = true) l₁ l₂ := by
    intro l₁ l₂ h
    exact h.imp fun a b hab hm => by rw [hab hm]; exact hm
  refine ⟨h1, h2, h3, h4, hmono h1, hmono h2, hmono h3, hmono h4, ?_⟩
  intro hall
  refine ⟨?_, ?_, ?_, handleKeyPress_allHit g laneIndex hall⟩
  · unfold updateSustainedNotes
    rw [updateSustainedNotesAux_allHit g.lanes g.currentTime g.gameNotes g hall]
  · unfold checkMissedNotes
    rw [checkMissedNotesAux_allHit g.currentTime g.gameNotes g hall]
  · unfold handleKeyRelease
    rw [handleKeyReleaseAux_allHit g.currentTime laneIndex g.gameNotes g hall]

/-- Pulling an initial element out of a left fold of `min`. -/
theorem foldl_min_init (c : ℚ) :
    ∀ (l : List ℚ) (a : ℚ), l.foldl min (min c a) = min c (l.foldl min a) := by
  intro l
  induction l with
  | nil => intro a; rfl
  | cons x xs ih =>
      intro a
      simp only [List.foldl]
      rw [min_assoc, ih]

/-- The sentinel-initialized earliest-note fold equals the minimum of the
sentinel and the true minimum start time. -/
theorem earliestNoteTimeOf_eq_min (notes : List MIDINote) (hne : notes ≠ []) :
    earliestNoteTimeOf notes = min 999999 (claimEarliest notes) := by
  have hsel : ∀ (l : List MIDINote) (c : ℚ),
      l.foldl (fun acc n => if n.StartTime < acc then n.StartTime else acc) c =
        (l.map MIDINote.StartTime).foldl min c := by
    intro l
    induction l with
    | nil => intro c; rfl
    | cons x xs ih =>
        intro c
        simp only [List.foldl, List.map]
        rw [ih]
        congr 1
        by_cases h : x.StartTime < c
        · rw [if_pos h, min_eq_right (le_of_lt h)]
        · rw [if_neg h, min_eq_left (not_lt.mp h)]
  cases notes with
  | nil => exact absurd rfl hne
  | cons n rest =>
      have hsel2 : ∀ (l : List MIDINote) (c : ℚ),
          l.foldl (fun acc m => min acc m.StartTime) c =
            (l.map MIDINote.StartTime).foldl min c := by
        intro l
        induction l with
        | nil => intro c; rfl
        | cons x xs ih =>
            intro c
            simp only [List.foldl, List.map]
            rw [ih]
      simp only [earliestNoteTimeOf, claimEarliest]
      rw [List.foldl_cons, hsel rest, hsel2 rest]
      have hini : (if n.StartTime < (999999 : ℚ) then n.StartTime else 999999) =
          min (999999 : ℚ) n.StartTime := by
        by_cases hlt : n.StartTime < (999999 : ℚ)
        · rw [if_pos hlt, min_eq_right (le_of_lt hlt)]
        · rw [if_neg hlt, min_eq_left (not_lt.mp hlt)]
      rw [hini]
      exact foldl_min_init 999999 (rest.map MIDINote.StartTime) n.StartTime

/-- The adapter's keep-and-clip loop is `filterMap` of its body. -/
theorem loadGameNotesAux_eq_filterMap (e : ℚ) :
    ∀ notes : List MIDINote,
      loadGameNotesAux e notes = notes.filterMap (loadGameNote e) := by
  intro notes
  induction notes with
  | nil => rfl
  | cons n rest ih =>
      simp only [loadGameNotesAux]
      cases h : loadGameNote e n <;> simp [List.filterMap_cons, h, ih]

/-- C6 counterexample: `earliest` is not the minimum start time of the notes.
The fold starts from the sentinel 999999, so for a single note at
startTime = 1000000 the code uses earliest = 999999: the claim says its
adjustedStart is 1000000 − 1000000 + 2 = 2, but the adapter produces 3. -/
theorem loadMIDITrack_earliest_not_min :
    claimEarliest [farNote] = 1000000 ∧
    farNote.StartTime - claimEarliest [farNote] + 2.0 = 2 ∧
    (LoadMIDITrack menuGame [farNote]).gameNotes.map GameNote.StartTime = [3] ∧
    (3 : ℚ) ≠ 2 := by
  refine ⟨rfl, by norm_num [claimEarliest, farNote], ?_, by norm_num⟩
  norm_num [LoadMIDITrack, earliestNoteTimeOf, loadGameNotesAux, loadGameNote,
    farNote, menuGame, GAME_DURATION]

/-- C6 (amended): the adapter computes `earliest` as the minimum of the
sentinel 999999 and all start times (hence the true minimum whenever any
note starts before 999999 s), maps each note to
`adjustedStart = startTime − earliest + 2.0`, keeps exactly the notes with
`adjustedStart ≤ 30.0` (dropping those that exceed it), clips every kept
note's duration to `min duration (30.0 − adjustedStart)` so that
`adjustedStart + duration ≤ 30.0`, and fixes the session duration at
exactly 30.0 with `totalNotes` the number of kept notes. -/
theorem loadMIDITrack_adapter_spec (g : Game) (notes : List MIDINote)
    (hne : notes ≠ []) :
    earliestNoteTimeOf notes = min 999999 (claimEarliest notes) ∧
    (LoadMIDITrack g notes).gameNotes =
      notes.filterMap (loadGameNote (earliestNoteTimeOf notes)) ∧
    (∀ n ∈ notes,
      (n.StartTime - earliestNoteTimeOf notes + 2.0 ≤ GAME_DURATION →
        loadGameNote (earliestNoteTimeOf notes) n ≠ none) ∧
      (GAME_DURATION < n.StartTime - earliestNoteTimeOf notes + 2.0 →
        loadGameNote (earliestNoteTimeOf notes) n = none)) ∧
    (∀ (n : MIDINote) (gn : GameNote),
      loadGameNote (earliestNoteTimeOf notes) n = some gn →
      gn.StartTime = n.StartTime - earliestNoteTimeOf notes + 2.0 ∧
      gn.Duration = min n.Duration (GAME_DURATION - gn.StartTime) ∧
      gn.Lane = n.Lane) ∧
    (∀ gn ∈ (LoadMIDITrack g notes).gameNotes,
      gn.StartTime + gn.Duration ≤ GAME_DURATION) ∧
    (LoadMIDITrack g notes).songDuration = 30.0 ∧
    (LoadMIDITrack g notes).totalNotes =
      ((LoadMIDITrack g notes).gameNotes.length : ℤ) := by
  have hkeep : ∀ (e : ℚ) (n : MIDINote) (gn : GameNote), loadGameNote e n = some gn →
      gn.StartTime = n.StartTime - e + 2.0 ∧
      gn.Duration = min n.Duration (GAME_DURATION - gn.StartTime) ∧
      gn.Lane = n.Lane := by
    intro e n gn h
    unfold loadGameNote at h
    by_cases hdrop : GAME_DURATION < n.StartTime - e + 2.0
    · rw [if_pos hdrop] at h
      cases h
    · rw [if_neg hdrop] at h
      dsimp only at h
      by_cases hclip : GAME_DURATION < n.StartTime - e + 2.0 + n.Duration
      · rw [if_pos hclip] at h
        cases h
        refine ⟨rfl, ?_, rfl⟩
        dsimp only
        rw [min_eq_right (by linarith)]
      · rw [if_neg hclip] at h
        cases h
        refine ⟨rfl, ?_, rfl⟩
        dsimp only
        rw [min_eq_left (by linarith)]
  refine ⟨earliestNoteTimeOf_eq_min notes hne, ?_, ?_, hkeep _, ?_, rfl, ?_⟩
  · unfold LoadMIDITrack
    exact loadGameNotesAux_eq_filterMap _ notes
  · intro n _
    constructor
    · intro hle
      unfold loadGameNote
      rw [if_neg (not_lt.mpr hle)]
      simp
    · intro hgt
      unfold loadGameNote
      rw [if_pos hgt]
  · intro gn hgn
    have hmem : gn ∈ notes.filterMap (loadGameNote (earliestNoteTimeOf notes)) := by
      rw [← loadGameNotesAux_eq_filterMap]
      exact hgn
    rw [List.mem_filterMap] at hmem
    obtain ⟨n, _, hn⟩ := hmem
    obtain ⟨hs, hd, -⟩ := hkeep _ n gn hn
    have hadj : n.StartTime - earliestNoteTimeOf notes + 2.0 ≤ GAME_DURATION := by
      by_contra hgt
      push_neg at hgt
      unfold loadGameNote at hn
      rw [if_pos hgt] at hn
      cases hn
    rw [hd]
    have : min n.Duration (GAME_DURATION - gn.StartTime) ≤
        GAME_DURATION - gn.StartTime := min_le_right _ _
    linarith
  · unfold LoadMIDITrack
    simp

/-- C6 witness: the adapter applied to two notes at 5.0 s and 40.0 s (lead-in
2.0, window 30.0) keeps the first at adjustedStart 2.0 and drops the second
(adjustedStart 37.0 > 30.0), with songDuration exactly 30. -/
theorem loadMIDITrack_adapter_spec_witness :
    (LoadMIDITrack menuGame
        [{ Pitch := 60, Velocity := 64, StartTime := 5, Duration := 1, Lane := 1 },
         { Pitch := 62, Velocity := 64, StartTime := 40, Duration := 1, Lane := 1 }]).gameNotes.map
      (fun gn => (gn.StartTime, gn.Duration)) = [(2, 1)] ∧
    (LoadMIDITrack menuGame
        [{ Pitch := 60, Velocity := 64, StartTime := 5, Duration := 1, Lane := 1 },
         { Pitch := 62, Velocity := 64, StartTime := 40, Duration := 1, Lane := 1 }]).songDuration = 30 := by
  have h := loadMIDITrack_adapter_spec menuGame
    [{ Pitch := 60, Velocity := 64, StartTime := 5, Duration := 1, Lane := 1 },
     { Pitch := 62, Velocity := 64, StartTime := 40, Duration := 1, Lane := 1 }]
    (by simp)
  refine ⟨?_, by rw [h.2.2.2.2.2.1]; norm_num⟩
  rw [h.2.1]
  have he : earliestNoteTimeOf
      [{ Pitch := 60, Velocity := 64, StartTime := 5, Duration := 1, Lane := 1 },
       { Pitch := 62, Velocity := 64, StartTime := 40, Duration := 1, Lane := 1 }] = 5 := by
    rw [h.1]
    norm_num [claimEarliest]
  rw [he]
  norm_num [loadGameNote, GAME_DURATION, List.filterMap_cons]

/-- C4 counterexample: the per-note divisor is not the total active count.
At t = 5 s with two active notes (no calibration tone, trivial oscillator),
the source leaves the first contribution undivided and halves only the
second, giving (0.22, 0.14); equal division by the total count 2 would give
(0.14, 0.10). -/
theorem synthesize_not_total_count :
    synthesizeAtTime oscOne [synthNoteA, synthNoteB] 5 = (0.22, 0.14) ∧
    claimSynthesizeAtTime oscOne [synthNoteA, synthNoteB] 5 = (0.14, 0.1) ∧
    ((0.22 : ℚ), (0.14 : ℚ)) ≠ ((0.14 : ℚ), (0.1 : ℚ)) := by
  refine ⟨?_, ?_, by norm_num [Prod.ext_iff]⟩ <;>
    norm_num [synthesizeAtTime, synthNoteStep, claimSynthesizeAtTime,
      claimNoteContribution, claimActiveCount, clampSample, oscOne, synthNoteA,
      synthNoteB, List.filter, Prod.ext_iff]

/-- C4 (amended): each active note's sine contribution has base amplitude
0.2 divided by the running count of contributions active so far at that
sample (the calibration tone counting as the first when t < 2 s), not by the
total count; the first contribution when no tone plays is undivided and the
second is halved, so the divisor differs per note. -/
theorem synthesize_running_count (osc : ℤ → ℚ → ℚ) (n1 n2 : MIDINote) (t : ℚ)
    (ht : 2 ≤ t)
    (h1a : n1.StartTime ≤ t) (h1b : t < n1.StartTime + n1.Duration)
    (h2a : n2.StartTime ≤ t) (h2b : t < n2.StartTime + n2.Duration)
    (hl1 : n1.Lane = 0) (hl2 : n2.Lane = 1)
    (he1a : 0.05 ≤ t - n1.StartTime) (he1b : 0.05 ≤ n1.StartTime + n1.Duration - t)
    (he2a : 0.05 ≤ t - n2.StartTime) (he2b : 0.05 ≤ n2.StartTime + n2.Duration - t) :
    synthesizeAtTime osc [n1, n2] t =
      (clampSample (0.2 * osc n1.Pitch t * 0.8 + 0.2 * osc n2.Pitch t / 2 * 0.6),
       clampSample (0.2 * osc n1.Pitch t * 0.4 + 0.2 * osc n2.Pitch t / 2 * 0.6)) := by
  have hs1 : synthNoteStep osc t (0, 0, 0) n1 =
      (0 + 0.2 * 1.0 * osc n1.Pitch t * 0.8, 0 + 0.2 * 1.0 * osc n1.Pitch t * 0.4,
       (0 : ℤ) + 1) := by
    unfold synthNoteStep
    rw [if_pos ⟨h1a, h1b⟩]
    dsimp only
    rw [if_neg (not_lt.mpr he1a), if_neg (not_lt.mpr he1b),
      if_neg (by norm_num : ¬(1 : ℤ) < 0 + 1), if_pos hl1]
  have hs2 : synthNoteStep osc t
      (0 + 0.2 * 1.0 * osc n1.Pitch t * 0.8, 0 + 0.2 * 1.0 * osc n1.Pitch t * 0.4,
       (0 : ℤ) + 1) n2 =
      (0 + 0.2 * 1.0 * osc n1.Pitch t * 0.8 +
         0.2 * 1.0 * osc n2.Pitch t / (((0 : ℤ) + 1 + 1 : ℤ) : ℚ) * 0.6,
       0 + 0.2 * 1.0 * osc n1.Pitch t * 0.4 +
         0.2 * 1.0 * osc n2.Pitch t / (((0 : ℤ) + 1 + 1 : ℤ) : ℚ) * 0.6,
       (0 : ℤ) + 1 + 1) := by
    unfold synthNoteStep
    rw [if_pos ⟨h2a, h2b⟩]
    dsimp only
    rw [if_neg (not_lt.mpr he2a), if_neg (not_lt.mpr he2b),
      if_pos (by norm_num : (1 : ℤ) < 0 + 1 + 1),
      if_neg (by rw [hl2]; norm_num : ¬n2.Lane = 0), if_pos hl2]
  unfold synthesizeAtTime
  rw [if_neg (by intro hc; linarith [hc.2])]
  dsimp only
  rw [List.foldl_cons, hs1, List.foldl_cons, hs2, List.foldl_nil]
  have hc : ∀ x y : ℚ, x = y → clampSample x = clampSample y := fun x y h => by rw [h]
  dsimp only
  refine congrArg₂ Prod.mk (hc _ _ ?_) (hc _ _ ?_) <;> (push_cast; ring)

/-- C4 witness: instantiating the running-count theorem at the two concrete
active notes with the trivial oscillator gives (0.22, 0.14) — divisors 1 and
2, not 2 and 2. -/
theorem synthesize_running_count_witness :
    synthesizeAtTime oscOne [synthNoteA, synthNoteB] 5 = (0.22, 0.14) := by
  have h := synthesize_running_count oscOne synthNoteA synthNoteB 5 (by norm_num)
    (by norm_num [synthNoteA]) (by norm_num [synthNoteA])
    (by norm_num [synthNoteB]) (by norm_num [synthNoteB]) rfl rfl
    (by norm_num [synthNoteA]) (by norm_num [synthNoteA])
    (by norm_num [synthNoteB]) (by norm_num [synthNoteB])
  rw [h]
  norm_num [clampSample, oscOne, Prod.ext_iff]

/-- C9 witness: on a session whose single note is resolved, all four
resolution paths leave the game untouched. -/
theorem resolved_note_frozen_witness :
    updateSustainedNotes gameC9 = gameC9 ∧ checkMissedNotes gameC9 = gameC9 ∧
    handleKeyRelease gameC9 1 = gameC9 ∧ handleKeyPress gameC9 1 = gameC9 := by
  exact (resolved_note_frozen gameC9 1).2.2.2.2.2.2.2.2
    (by intro m hm; simp [gameC9] at hm; rw [hm]; rfl)

end GHero
